import Mathlib

/-!
Shallow embedding of src/Assignment1/Assignment1.cpp, a console Bohr-model
electron-transition energy calculator.

Modelling conventions:
  - `double` arithmetic is embedded as exact rational arithmetic over ℚ
    (the claims under verification are at the level of the formula the code
    computes, not of IEEE rounding).
  - `long long` is ℤ with explicit clamping at the 64-bit bounds where the
    C++ stream extraction clamps; the `(int)` and `(unsigned int)` casts at
    use sites are modelled as explicit wrap-around functions.
  - console input is a list of lines (each a list of characters); reaching
    the end of the list models end-of-input (std::getline failing).
  - stream extraction follows C++11 `num_get` semantics: on a failed
    extraction the target is set to 0 (overwriting any prior value), on
    out-of-range input it is set to the clamped bound, and the stream enters
    a failed state in which later extractions do nothing.
-/

/-- Enumerator of energy type (EnergyType in the source). -/
inductive EnergyType
  | ELECTRON_VOLT
  | JOULES
  deriving DecidableEq

/-- Rydberg constant in electron-volts (RYDBERG_CONSTANT in the source). -/
def RYDBERG_CONSTANT : ℚ := 13.60569300984

/-- Electron-volt to joules constant (EV_TO_JOULES in the source). -/
def EV_TO_JOULES : ℚ := 1.6e-19

/-- Model of calculateBohrEnergy: energy of an electron transition defined by
Z, nInitial and nFinal using the Bohr model, optionally converted to joules.
The two std::pow calls with exponent 2.0 are the exact squares. -/
def calculateBohrEnergy (Z nInitial nFinal : ℕ) (eType : EnergyType) : ℚ :=
  let energy := RYDBERG_CONSTANT * (Z : ℚ) ^ 2 *
    (1 / (nFinal : ℚ) ^ 2 - 1 / (nInitial : ℚ) ^ 2)
  if eType = EnergyType.JOULES then energy * EV_TO_JOULES else energy

/-- INT_MIN for 32-bit int. -/
def intMin : ℤ := -2147483648

/-- INT_MAX for 32-bit int, the default upper bound of getint. -/
def intMax : ℤ := 2147483647

/-- LLONG_MIN, the sentinel getint stores in possibleInteger before extraction. -/
def llongMin : ℤ := -9223372036854775808

/-- LLONG_MAX. -/
def llongMax : ℤ := 9223372036854775807

/-- Model of the value-changing conversion (int)x from long long to int:
two's-complement wrap-around into [-2^31, 2^31). -/
def toInt32 (x : ℤ) : ℤ := (x + 2147483648) % 4294967296 - 2147483648

/-- Model of the conversion (unsigned int)x from int to unsigned int:
wrap-around into [0, 2^32). -/
def toUInt32 (x : ℤ) : ℕ := (x % 4294967296).toNat

/-- Whitespace in the default C locale, as skipped by formatted stream
extraction: space, tab, newline, vertical tab, form feed, carriage return. -/
def isCSpace (c : Char) : Bool :=
  c = ' ' || c = '\t' || c = '\n' || c = '\x0b' || c = '\x0c' || c = '\r'

/-- Result of the extraction `input >> possibleInteger` on a stringstream:
whether it succeeded (the stream is good), the value stored into the target,
and the unread remainder of the buffer. -/
structure ExtractResult where
  ok : Bool
  value : ℤ
  rest : List Char
  deriving DecidableEq

/-- Numeric value of a list of decimal digits. -/
def digitsToNat (ds : List Char) : ℕ :=
  ds.foldl (fun n c => n * 10 + (c.toNat - 48)) 0

/-- Model of `input >> possibleInteger` for a long long target under C++11
num_get semantics: skip leading whitespace, take an optional sign and the
longest run of decimal digits. If no digit was taken the extraction fails and
stores 0; if the value overflows, it fails and stores the clamped bound;
otherwise it succeeds with the value. -/
def extractLongLong (line : List Char) : ExtractResult :=
  let s1 := line.dropWhile isCSpace
  let signAndRest : ℤ × List Char :=
    match s1 with
    | '+' :: t => (1, t)
    | '-' :: t => (-1, t)
    | _ => (1, s1)
  let ds := signAndRest.2.takeWhile Char.isDigit
  let rest := signAndRest.2.dropWhile Char.isDigit
  if ds.isEmpty then { ok := false, value := 0, rest := rest }
  else
    let v : ℤ := signAndRest.1 * (digitsToNat ds : ℤ)
    if v > llongMax then { ok := false, value := llongMax, rest := rest }
    else if v < llongMin then { ok := false, value := llongMin, rest := rest }
    else { ok := true, value := v, rest := rest }

/-- Model of `input >> emptyTest` for a std::string target on a good stream:
the first whitespace-delimited token of the remaining buffer (empty when only
whitespace remains). On a failed stream the extraction does nothing and the
target keeps its value, which the caller models separately. -/
def firstToken (s : List Char) : List Char :=
  (s.dropWhile isCSpace).takeWhile (fun c => !isCSpace c)

/-- One iteration of getint's while loop on a single line: extract a long
long, apply the range bounds check, then require the rest of the buffer to be
empty (the emptyTest extraction is a no-op on a stream whose numeric
extraction failed, so emptyTest then stays empty). Returns some value when
the loop would break and return, none when it would print the error and read
another line. -/
def getintLine (mn mx : ℤ) (line : List Char) : Option ℤ :=
  let r := extractLongLong line
  if mn ≤ r.value ∧ r.value ≤ mx then
    let emptyTest := if r.ok then firstToken r.rest else []
    if emptyTest.isEmpty then some r.value else none
  else none

/-- The while loop of getint: possibleInteger (poss) holds the long long
left by the previous iteration's extraction (llongMin before any iteration).
When std::getline fails at end-of-input the loop exits and the residual
possibleInteger is what the function returns. -/
def getintAuxLL (mn mx poss : ℤ) : List (List Char) → ℤ
  | [] => poss
  | line :: rest =>
    match getintLine mn mx line with
    | some v => v
    | none => getintAuxLL mn mx (extractLongLong line).value rest

/-- Model of getint(min, max): run the while loop over the input lines and
convert the resulting long long to int at the single return point. -/
def getint (mn mx : ℤ) (lines : List (List Char)) : ℤ :=
  toInt32 (getintAuxLL mn mx llongMin lines)

/-- The long long left in possibleInteger after a run of iterations none of
which broke out of the loop: the last line's extraction result, or the
initial sentinel when no line was read. -/
def residualLL (poss : ℤ) : List (List Char) → ℤ
  | [] => poss
  | line :: rest => residualLL (extractLongLong line).value rest

/-- Model of std::tolower in the default C locale on ASCII characters. -/
def cToLower (c : Char) : Char :=
  if 'A' ≤ c ∧ c ≤ 'Z' then Char.ofNat (c.toNat + 32) else c

/-- Model of icompare: two strings are equal case-insensitively when they
have the same length and each pair of characters at the same index agree
after forcing them to lower case. -/
def icompare (a b : List Char) : Bool :=
  if a.length ≠ b.length then false
  else (a.zip b).all (fun p => cToLower p.1 == cToLower p.2)

/-- Case folding of a whole string, used to state what icompare decides. -/
def lowerStr (s : List Char) : List Char := s.map cToLower

/-- Model of getBetweenTwoStringSetOptions: for each input line, look for a
case-insensitive match in the first string set, then in the second; return 1
on a first-set match, -1 on a second-set match, and otherwise re-prompt on
the next line. Falling off the end of the input models std::getline failing
at end-of-input, where the source would return an uninitialized response;
this is modelled as none. -/
def getBetweenTwoStringSetOptions (firstStringSet secondStringSet : List (List Char)) :
    List (List Char) → Option ℤ
  | [] => none
  | line :: rest =>
    if firstStringSet.any (fun a => icompare a line) then some 1
    else if secondStringSet.any (fun a => icompare a line) then some (-1)
    else getBetweenTwoStringSetOptions firstStringSet secondStringSet rest

/-- The accept set of getEnergyType (validEV in the source). -/
def validEV : List (List Char) :=
  [String.toList "e", String.toList "ev", String.toList "electron volt",
   String.toList "electronvolt", String.toList "electron-volt",
   String.toList "electron volts", String.toList "electronvolts",
   String.toList "electron-volts"]

/-- The reject set of getEnergyType (validJoules in the source). -/
def validJoules : List (List Char) :=
  [String.toList "j", String.toList "joule", String.toList "joules"]

/-- Model of getEnergyType: ELECTRON_VOLT when the two-set reader returned 1,
JOULES when it returned -1. none models the reader falling off the end of
input (uninitialized response in the source). -/
def getEnergyType (lines : List (List Char)) : Option EnergyType :=
  match getBetweenTwoStringSetOptions validEV validJoules lines with
  | none => none
  | some r => some (if r = 1 then EnergyType.ELECTRON_VOLT else EnergyType.JOULES)

/-- Outcome of one iteration of main's do-while body once the three spec
integers have been collected: either the ordering check fails and the
iteration restarts at spec collection, or the iteration proceeds to compute
and report an energy and ask whether to continue. -/
inductive IterationOutcome
  | restart
  | computed (energy : ℚ) (eType : EnergyType) (shouldContinue : Bool)
  deriving DecidableEq

/-- Model of the body of main's loop after Z, nInitial, nFinal have been
collected, with the unit choice and continue answer the user would
eventually give: if nInitial < nFinal the iteration restarts (continue
statement); otherwise calculateBohrEnergy is invoked and its result
reported. -/
def mainIteration (Z nInitial nFinal : ℕ) (eType : EnergyType)
    (shouldContinue : Bool) : IterationOutcome :=
  if nInitial < nFinal then IterationOutcome.restart
  else IterationOutcome.computed (calculateBohrEnergy Z nInitial nFinal eType)
    eType shouldContinue

/-! Helper lemmas. -/

/-- Conversion to int does not change values already in int range. -/
lemma toInt32_eq_self {x : ℤ} (h1 : intMin ≤ x) (h2 : x ≤ intMax) : toInt32 x = x := by
  unfold toInt32
  unfold intMin at h1
  unfold intMax at h2
  omega

/-- Conversion to unsigned int round-trips on nonnegative int values. -/
lemma toUInt32_cast {x : ℤ} (h0 : 0 ≤ x) (h2 : x ≤ intMax) : (toUInt32 x : ℤ) = x := by
  unfold toUInt32
  unfold intMax at h2
  omega

/-- A value accepted by one iteration of getint's loop passed the bounds check. -/
lemma getintLine_some_range {mn mx : ℤ} {line : List Char} {v : ℤ}
    (h : getintLine mn mx line = some v) : mn ≤ v ∧ v ≤ mx := by
  simp only [getintLine] at h
  split at h
  · rename_i hrange
    split at h
    · split at h
      · rw [Option.some.injEq] at h
        subst h
        exact hrange
      · cases h
    · simp only [List.isEmpty_nil, if_true, Option.some.injEq] at h
      subst h
      exact hrange
  · cases h

/-- If some line is accepted, the loop of getint exits with an in-range value. -/
lemma getintAuxLL_mem (mn mx : ℤ) :
    ∀ (lines : List (List Char)) (poss : ℤ),
      (∃ l ∈ lines, (getintLine mn mx l).isSome = true) →
      mn ≤ getintAuxLL mn mx poss lines ∧ getintAuxLL mn mx poss lines ≤ mx := by
  intro lines
  induction lines with
  | nil =>
    intro poss h
    simp at h
  | cons line rest ih =>
    intro poss h
    cases hline : getintLine mn mx line with
    | some v =>
      simp only [getintAuxLL, hline]
      exact getintLine_some_range hline
    | none =>
      simp only [getintAuxLL, hline]
      apply ih
      obtain ⟨w, hw, hws⟩ := h
      rcases List.mem_cons.mp hw with rfl | hw2
      · rw [hline] at hws
        simp at hws
      · exact ⟨w, hw2, hws⟩

/-- getint returns an in-range value when some input line is accepted and the
bounds fit in int. -/
lemma getint_range (mn mx : ℤ) (lines : List (List Char))
    (hmn : intMin ≤ mn) (hmx : mx ≤ intMax)
    (h : ∃ l ∈ lines, (getintLine mn mx l).isSome = true) :
    mn ≤ getint mn mx lines ∧ getint mn mx lines ≤ mx := by
  obtain ⟨h1, h2⟩ := getintAuxLL_mem mn mx lines llongMin h
  unfold getint
  rw [toInt32_eq_self (le_trans hmn h1) (le_trans h2 hmx)]
  exact ⟨h1, h2⟩

/-- A getint call with bounds 1 and INT_MAX that accepts some line yields a
value that is at least 1 and survives the unsigned int conversion unchanged. -/
lemma getint_pos_result (L : List (List Char))
    (h : ∃ l ∈ L, (getintLine 1 intMax l).isSome = true) :
    1 ≤ toUInt32 (getint 1 intMax L) ∧
      (toUInt32 (getint 1 intMax L) : ℤ) = getint 1 intMax L := by
  obtain ⟨h1, h2⟩ := getint_range 1 intMax L (by norm_num [intMin]) (le_refl _) h
  have hc := toUInt32_cast (le_trans (by norm_num) h1) h2
  refine ⟨?_, hc⟩
  have : (1 : ℤ) ≤ (toUInt32 (getint 1 intMax L) : ℤ) := by
    rw [hc]
    exact h1
  exact_mod_cast this

/-- When no line is accepted, getint's loop runs to end-of-input and leaves
the last extraction result (or the initial sentinel) in possibleInteger. -/
lemma getintAuxLL_allNone (mn mx : ℤ) :
    ∀ (lines : List (List Char)) (poss : ℤ),
      (∀ l ∈ lines, getintLine mn mx l = none) →
      getintAuxLL mn mx poss lines = residualLL poss lines := by
  intro lines
  induction lines with
  | nil =>
    intro poss _
    rfl
  | cons line rest ih =>
    intro poss h
    have hline : getintLine mn mx line = none := h line (by simp)
    simp only [getintAuxLL, hline, residualLL]
    exact ih _ (fun l hl => h l (by simp [hl]))

/-- Characterisation of icompare's character-pair check: with equal lengths
it decides equality of the case-folded strings. -/
lemma zip_all_lower_iff :
    ∀ (a b : List Char), a.length = b.length →
      (((a.zip b).all fun p => cToLower p.1 == cToLower p.2) = true ↔
        lowerStr a = lowerStr b) := by
  intro a
  induction a with
  | nil =>
    intro b hb
    cases b with
    | nil => simp [lowerStr]
    | cons h2 t2 => simp at hb
  | cons h t ih =>
    intro b hb
    cases b with
    | nil => simp at hb
    | cons h2 t2 =>
      have hb2 : t.length = t2.length := by simpa using hb
      simp only [List.zip_cons_cons, List.all_cons, Bool.and_eq_true, beq_iff_eq,
        lowerStr, List.map_cons, List.cons.injEq]
      constructor
      · rintro ⟨hh, ht⟩
        exact ⟨hh, (ih t2 hb2).mp ht⟩
      · rintro ⟨hh, ht⟩
        exact ⟨hh, (ih t2 hb2).mpr ht⟩

/-- icompare decides equality of case-folded strings. -/
lemma icompare_iff (a b : List Char) : icompare a b = true ↔ lowerStr a = lowerStr b := by
  unfold icompare
  split
  · rename_i hne
    constructor
    · intro hfalse
      cases hfalse
    · intro hmap
      exfalso
      apply hne
      have := congrArg List.length hmap
      simpa [lowerStr] using this
  · rename_i hlen
    apply zip_all_lower_iff
    omega

/-- One unfolding of the two-set choice reader, with the case-insensitive
match expressed as equality of the case-folded strings. -/
lemma getBTSSO_cons (f s : List (List Char)) (line : List Char) (rest : List (List Char)) :
    getBetweenTwoStringSetOptions f s (line :: rest) =
      if ∃ m ∈ f, lowerStr m = lowerStr line then (some 1 : Option ℤ)
      else if ∃ m ∈ s, lowerStr m = lowerStr line then some (-1)
      else getBetweenTwoStringSetOptions f s rest := by
  have h1 : (f.any fun a => icompare a line) = true ↔ ∃ m ∈ f, lowerStr m = lowerStr line := by
    rw [List.any_eq_true]
    constructor
    · rintro ⟨m, hm, hic⟩
      exact ⟨m, hm, (icompare_iff m line).mp hic⟩
    · rintro ⟨m, hm, he⟩
      exact ⟨m, hm, (icompare_iff m line).mpr he⟩
  have h2 : (s.any fun a => icompare a line) = true ↔ ∃ m ∈ s, lowerStr m = lowerStr line := by
    rw [List.any_eq_true]
    constructor
    · rintro ⟨m, hm, hic⟩
      exact ⟨m, hm, (icompare_iff m line).mp hic⟩
    · rintro ⟨m, hm, he⟩
      exact ⟨m, hm, (icompare_iff m line).mpr he⟩
  simp only [getBetweenTwoStringSetOptions]
  rw [if_congr h1 rfl (if_congr h2 rfl rfl)]

/-! Claim theorems. -/

/-- C1: for every unit choice and all non-negative integers Z, nInitial,
nFinal with the levels nonzero, calculateBohrEnergy returns
R * Z^2 * (1/nFinal^2 - 1/nInitial^2) with R = 13.60569300984 when the unit
is electron-volts, and that same value multiplied by 1.6e-19 when the unit is
joules. -/
theorem c1_bohr_formula (Z nInitial nFinal : ℕ)
    (hI : nInitial ≠ 0) (hF : nFinal ≠ 0) :
    calculateBohrEnergy Z nInitial nFinal EnergyType.ELECTRON_VOLT =
      13.60569300984 * (Z : ℚ) ^ 2 *
        (1 / (nFinal : ℚ) ^ 2 - 1 / (nInitial : ℚ) ^ 2) ∧
    calculateBohrEnergy Z nInitial nFinal EnergyType.JOULES =
      13.60569300984 * (Z : ℚ) ^ 2 *
        (1 / (nFinal : ℚ) ^ 2 - 1 / (nInitial : ℚ) ^ 2) * 1.6e-19 := by
  constructor <;>
    simp [calculateBohrEnergy, RYDBERG_CONSTANT, EV_TO_JOULES]

/-- Witness for C1 at Z = 1, nInitial = 2, nFinal = 1. -/
theorem c1_bohr_formula_witness :
    (2 : ℕ) ≠ 0 ∧ (1 : ℕ) ≠ 0 ∧
    (calculateBohrEnergy 1 2 1 EnergyType.ELECTRON_VOLT =
      13.60569300984 * ((1 : ℕ) : ℚ) ^ 2 *
        (1 / ((1 : ℕ) : ℚ) ^ 2 - 1 / ((2 : ℕ) : ℚ) ^ 2) ∧
    calculateBohrEnergy 1 2 1 EnergyType.JOULES =
      13.60569300984 * ((1 : ℕ) : ℚ) ^ 2 *
        (1 / ((1 : ℕ) : ℚ) ^ 2 - 1 / ((2 : ℕ) : ℚ) ^ 2) * 1.6e-19) :=
  ⟨by decide, by decide, c1_bohr_formula 1 2 1 (by decide) (by decide)⟩

/-- C2 counterexample: at Z = 1, nInitial = 1, nFinal = 1 the collected
integers violate nInitial > nFinal, yet the iteration does not restart — it
proceeds to invoke calculateBohrEnergy on those values. -/
theorem c2_counterexample :
    ¬ (1 > 1) ∧
    mainIteration 1 1 1 EnergyType.ELECTRON_VOLT true ≠ IterationOutcome.restart ∧
    mainIteration 1 1 1 EnergyType.ELECTRON_VOLT true =
      IterationOutcome.computed (calculateBohrEnergy 1 1 1 EnergyType.ELECTRON_VOLT)
        EnergyType.ELECTRON_VOLT true := by
  refine ⟨by decide, by decide, ?_⟩
  simp [mainIteration]

/-- C2 amended: the invariant enforced before the energy computation is
nInitial ≥ nFinal; an iteration restarts at spec collection exactly when
nInitial < nFinal, and otherwise proceeds to the computation. -/
theorem c2_amended_restart_iff (Z nInitial nFinal : ℕ) (e : EnergyType) (c : Bool) :
    mainIteration Z nInitial nFinal e c = IterationOutcome.restart ↔
      nInitial < nFinal := by
  unfold mainIteration
  split
  · rename_i h
    simp [h]
  · rename_i h
    simp [h]

/-- C3: evaluation of getint's per-line acceptance at the failing input. On
the line "abc" no numeric value is extracted (the extraction fails), yet with
range [0, 10] the line is accepted with value 0: the C++11 failed extraction
stores 0, which passes the bounds check, and the failed stream leaves
emptyTest empty. With range [1, 10] the same line is rejected. -/
theorem c3_digitless_line_accepted :
    (extractLongLong (String.toList "abc")).ok = false ∧
    getintLine 0 10 (String.toList "abc") = some 0 ∧
    getintLine 1 10 (String.toList "abc") = none := by
  decide

/-- C4: the joules result of calculateBohrEnergy is exactly the
electron-volt result multiplied by 1.6e-19. -/
theorem c4_joule_is_ev_scaled (Z nInitial nFinal : ℕ)
    (hI : nInitial ≠ 0) (hF : nFinal ≠ 0) :
    calculateBohrEnergy Z nInitial nFinal EnergyType.JOULES =
      calculateBohrEnergy Z nInitial nFinal EnergyType.ELECTRON_VOLT * 1.6e-19 := by
  simp [calculateBohrEnergy, EV_TO_JOULES]

/-- Witness for C4 at Z = 1, nInitial = 2, nFinal = 1. -/
theorem c4_joule_is_ev_scaled_witness :
    (2 : ℕ) ≠ 0 ∧ (1 : ℕ) ≠ 0 ∧
    calculateBohrEnergy 1 2 1 EnergyType.JOULES =
      calculateBohrEnergy 1 2 1 EnergyType.ELECTRON_VOLT * 1.6e-19 :=
  ⟨by decide, by decide, c4_joule_is_ev_scaled 1 2 1 (by decide) (by decide)⟩

/-- C5: for Z ≥ 1 and n1 > n2 ≥ 1 the electron-volt energy is strictly
positive. -/
theorem c5_energy_positive (Z n1 n2 : ℕ) (h12 : n1 > n2) (h2 : 1 ≤ n2) (hZ : 1 ≤ Z) :
    0 < calculateBohrEnergy Z n1 n2 EnergyType.ELECTRON_VOLT := by
  have hn2 : (0 : ℚ) < (n2 : ℚ) := by
    exact_mod_cast Nat.lt_of_lt_of_le Nat.zero_lt_one h2
  have h21 : (n2 : ℚ) < (n1 : ℚ) := by exact_mod_cast h12
  have hZq : (0 : ℚ) < (Z : ℚ) := by
    exact_mod_cast Nat.lt_of_lt_of_le Nat.zero_lt_one hZ
  have hp2 : (0 : ℚ) < (n2 : ℚ) ^ 2 := by positivity
  have hlt : (n2 : ℚ) ^ 2 < (n1 : ℚ) ^ 2 := by nlinarith
  have hdiv : 1 / (n1 : ℚ) ^ 2 < 1 / (n2 : ℚ) ^ 2 :=
    one_div_lt_one_div_of_lt hp2 hlt
  have hdiff : 0 < 1 / (n2 : ℚ) ^ 2 - 1 / (n1 : ℚ) ^ 2 := sub_pos.mpr hdiv
  have hR : (0 : ℚ) < RYDBERG_CONSTANT := by norm_num [RYDBERG_CONSTANT]
  have hZ2 : (0 : ℚ) < (Z : ℚ) ^ 2 := by positivity
  simp only [calculateBohrEnergy, reduceCtorEq, if_false]
  exact mul_pos (mul_pos hR hZ2) hdiff

/-- Witness for C5 at Z = 1, n1 = 2, n2 = 1. -/
theorem c5_energy_positive_witness :
    (2 > 1 ∧ 1 ≤ 1 ∧ 1 ≤ 1) ∧
    0 < calculateBohrEnergy 1 2 1 EnergyType.ELECTRON_VOLT :=
  ⟨by decide, c5_energy_positive 1 2 1 (by decide) (by decide) (by decide)⟩

/-- C6: the two-set choice reader compares the line against set members by
case-insensitive ASCII folding with exact length-then-character-wise
equality: a line whose folding equals a member of the first (accept) set
yields 1, else one matching the second (reject) set yields -1, and otherwise
the reader retries on the next line. Concretely, with accept set y/yes and
reject set n/no, the line YES yields 1, and the line maybe is re-prompted. -/
theorem c6_choice_reader :
    (∀ (firstStringSet secondStringSet : List (List Char)) (line : List Char)
        (rest : List (List Char)),
      getBetweenTwoStringSetOptions firstStringSet secondStringSet (line :: rest) =
        if ∃ m ∈ firstStringSet, lowerStr m = lowerStr line then some 1
        else if ∃ m ∈ secondStringSet, lowerStr m = lowerStr line then some (-1)
        else getBetweenTwoStringSetOptions firstStringSet secondStringSet rest) ∧
    getBetweenTwoStringSetOptions [String.toList "y", String.toList "yes"]
      [String.toList "n", String.toList "no"] [String.toList "YES"] = some 1 ∧
    getBetweenTwoStringSetOptions [String.toList "y", String.toList "yes"]
      [String.toList "n", String.toList "no"]
      [String.toList "maybe", String.toList "y"] =
    getBetweenTwoStringSetOptions [String.toList "y", String.toList "yes"]
      [String.toList "n", String.toList "no"] [String.toList "y"] :=
  ⟨getBTSSO_cons, by decide, by decide⟩

/-- C7: getEnergyType returns ELECTRON_VOLT exactly when the line folds to
one of the eight electron-volt synonyms, JOULES exactly when it folds to one
of the three joule synonyms, and otherwise re-prompts on the next line. -/
theorem c7_energy_unit_adapter (line : List Char) (rest : List (List Char)) :
    getEnergyType (line :: rest) =
      if ∃ m ∈ validEV, lowerStr m = lowerStr line then some EnergyType.ELECTRON_VOLT
      else if ∃ m ∈ validJoules, lowerStr m = lowerStr line then some EnergyType.JOULES
      else getEnergyType rest := by
  by_cases hP : ∃ m ∈ validEV, lowerStr m = lowerStr line
  · simp only [getEnergyType, getBTSSO_cons, if_pos hP]
    norm_num
  · by_cases hQ : ∃ m ∈ validJoules, lowerStr m = lowerStr line
    · simp only [getEnergyType, getBTSSO_cons, if_neg hP, if_pos hQ]
      norm_num
    · simp only [getEnergyType, getBTSSO_cons, if_neg hP, if_neg hQ]

/-- C8 counterexample: with the input stream exhausted after a single invalid
line (so no valid line was ever read), getint does return a value to its
caller — the loop exits when std::getline fails and the function returns the
int conversion of the residual long long, here 0. -/
theorem c8_counterexample :
    getintLine 1 intMax (String.toList "abc") = none ∧
    getint 1 intMax [String.toList "abc"] = 0 := by
  decide

/-- C8 amended: when the input reaches end-of-input before any line passes
validation, getint does not block: its read loop exits and it returns the int
conversion of the long long left by the last extraction (the LLONG_MIN
sentinel when no line was read at all), a value that never passed
validation. -/
theorem c8_amended_eof_returns (mn mx : ℤ) (lines : List (List Char))
    (h : ∀ l ∈ lines, getintLine mn mx l = none) :
    getint mn mx lines = toInt32 (residualLL llongMin lines) := by
  unfold getint
  rw [getintAuxLL_allNone mn mx lines llongMin h]

/-- Witness for the amended C8 on the single rejected line "abc" with range
[1, 10]. -/
theorem c8_amended_eof_returns_witness :
    (∀ l ∈ [String.toList "abc"], getintLine 1 10 l = none) ∧
    getint 1 10 [String.toList "abc"] =
      toInt32 (residualLL llongMin [String.toList "abc"]) :=
  ⟨by decide, c8_amended_eof_returns 1 10 [String.toList "abc"] (by decide)⟩

/-- C9: with equal levels nInitial = nFinal = n ≥ 1 the ordering validation
passes (only nInitial < nFinal restarts), the iteration proceeds to the
computation, and calculateBohrEnergy returns exactly 0 in either unit. -/
theorem c9_equal_levels (Z n : ℕ) (e : EnergyType) (c : Bool) (hn : 1 ≤ n) :
    mainIteration Z n n e c =
      IterationOutcome.computed (calculateBohrEnergy Z n n e) e c ∧
    calculateBohrEnergy Z n n e = 0 := by
  constructor
  · simp [mainIteration]
  · cases e <;> simp [calculateBohrEnergy]

/-- Witness for C9 at Z = 1, n = 1, unit JOULES. -/
theorem c9_equal_levels_witness :
    1 ≤ 1 ∧
    (mainIteration 1 1 1 EnergyType.JOULES false =
      IterationOutcome.computed (calculateBohrEnergy 1 1 1 EnergyType.JOULES)
        EnergyType.JOULES false ∧
     calculateBohrEnergy 1 1 1 EnergyType.JOULES = 0) :=
  ⟨by decide, c9_equal_levels 1 1 EnergyType.JOULES false (by decide)⟩

/-- C10: in an iteration whose three getint calls (each with bounds 1 and
INT_MAX) eventually accept a line, the three values passed on to
calculateBohrEnergy are all at least 1, and the conversions to unsigned int
do not change them. -/
theorem c10_collected_values (zLines nILines nFLines : List (List Char))
    (hz : ∃ l ∈ zLines, (getintLine 1 intMax l).isSome = true)
    (hi : ∃ l ∈ nILines, (getintLine 1 intMax l).isSome = true)
    (hf : ∃ l ∈ nFLines, (getintLine 1 intMax l).isSome = true) :
    1 ≤ toUInt32 (getint 1 intMax zLines) ∧
    1 ≤ toUInt32 (getint 1 intMax nILines) ∧
    1 ≤ toUInt32 (getint 1 intMax nFLines) ∧
    (toUInt32 (getint 1 intMax zLines) : ℤ) = getint 1 intMax zLines ∧
    (toUInt32 (getint 1 intMax nILines) : ℤ) = getint 1 intMax nILines ∧
    (toUInt32 (getint 1 intMax nFLines) : ℤ) = getint 1 intMax nFLines := by
  obtain ⟨a1, a2⟩ := getint_pos_result zLines hz
  obtain ⟨b1, b2⟩ := getint_pos_result nILines hi
  obtain ⟨d1, d2⟩ := getint_pos_result nFLines hf
  exact ⟨a1, b1, d1, a2, b2, d2⟩

/-- Witness for C10 with the single accepted line "5" for all three calls. -/
theorem c10_collected_values_witness :
    (∃ l ∈ [String.toList "5"], (getintLine 1 intMax l).isSome = true) ∧
    (1 ≤ toUInt32 (getint 1 intMax [String.toList "5"]) ∧
     1 ≤ toUInt32 (getint 1 intMax [String.toList "5"]) ∧
     1 ≤ toUInt32 (getint 1 intMax [String.toList "5"]) ∧
     (toUInt32 (getint 1 intMax [String.toList "5"]) : ℤ) =
       getint 1 intMax [String.toList "5"] ∧
     (toUInt32 (getint 1 intMax [String.toList "5"]) : ℤ) =
       getint 1 intMax [String.toList "5"] ∧
     (toUInt32 (getint 1 intMax [String.toList "5"]) : ℤ) =
       getint 1 intMax [String.toList "5"]) :=
  ⟨by decide, c10_collected_values [String.toList "5"] [String.toList "5"]
    [String.toList "5"] (by decide) (by decide) (by decide)⟩
